import Mathlib

/-!
Verification of the concurrent sunset-lookup pipeline (`main.go`).

The program reads a JSON array of records, distributes them through a
data monitor goroutine to a pool of workers, each worker queries an
external sunset-time service and forwards exact hour matches to a result
monitor that sorts them by hour and, once every worker has signalled
completion, publishes the final collection, which is written to a report
file.

Pure parts of the program (record processing, time parsing, output
formatting) are embedded as Lean functions.  The two monitor goroutines
are embedded as labelled transition systems: every rendezvous on an
unbuffered Go channel is one atomic step, and reachability is the
reflexive-transitive closure of the step relation.
-/

namespace Lab2

/-- Go struct `Structure` (main.go lines 15-20).  `float64` coordinates are
modelled as rationals (the program never computes with them, it only
carries and prints them); `int` is modelled as `ℤ`. -/
structure Structure where
  Date : String
  Lat : ℚ
  Lng : ℚ
  Hour : ℤ
deriving Repr, DecidableEq

/-- Go struct `ComputedStructure` (main.go lines 22-28). -/
structure ComputedStructure where
  Date : String
  Lat : ℚ
  Lng : ℚ
  Hour : ℤ
  SunsetHour : ℤ
deriving Repr, DecidableEq

/-! ## Sunset time parsing (`time.Parse("3:04:05 PM", ...)` + `.Hour()`) -/

/-- Numeric value of a decimal digit character, `none` otherwise. -/
def digitVal (c : Char) : Option ℕ :=
  if c.isDigit then some (c.toNat - 48) else none

/-- Exactly two decimal digits, as required by the zero-padded layout
fields `04` (minute) and `05` (second). -/
def parse2Digits (cs : List Char) : Option (ℕ × List Char) :=
  match cs with
  | c1 :: c2 :: rest =>
    match digitVal c1, digitVal c2 with
    | some d1, some d2 => some (d1 * 10 + d2, rest)
    | _, _ => none
  | _ => none

/-- One or two decimal digits, as accepted by the unpadded layout field
`3` (12-hour clock hour). -/
def parseHour12 (cs : List Char) : Option (ℕ × List Char) :=
  match cs with
  | c1 :: rest =>
    match digitVal c1 with
    | none => none
    | some d1 =>
      match rest with
      | c2 :: rest2 =>
        match digitVal c2 with
        | some d2 => some (d1 * 10 + d2, rest2)
        | none => some (d1, rest)
      | [] => some (d1, [])
  | [] => none

/-- Consume one expected literal character. -/
def expectChar (c : Char) (cs : List Char) : Option (List Char) :=
  match cs with
  | c1 :: rest => if c1 = c then some rest else none
  | [] => none

/-- Model of `time.Parse("3:04:05 PM", s)` followed by `.Hour()`
(main.go lines 225-230): hour of at most two digits and value at most 12,
colon, two-digit minute below 60, colon, two-digit second below 60,
space, `AM` or `PM`, end of input.  The meridiem converts the 12-hour
value into an hour in 0-23 exactly as Go's time package does. -/
def parseClock12 (s : String) : Option ℕ :=
  (parseHour12 s.toList).bind fun p1 =>
  if 12 < p1.1 then none else
  (expectChar ':' p1.2).bind fun cs2 =>
  (parse2Digits cs2).bind fun p2 =>
  if 59 < p2.1 then none else
  (expectChar ':' p2.2).bind fun cs4 =>
  (parse2Digits cs4).bind fun p3 =>
  if 59 < p3.1 then none else
  (expectChar ' ' p3.2).bind fun cs6 =>
  match cs6 with
  | ['A', 'M'] => some (if p1.1 = 12 then 0 else p1.1)
  | ['P', 'M'] => some (if p1.1 < 12 then p1.1 + 12 else p1.1)
  | _ => none

/-! ## The lookup collaborator (`FindSunsetHour`, main.go lines 206-231) -/

/-- The decoded body of the external service response (struct
`apiResponse`, main.go lines 233-238). -/
structure ApiResponse where
  sunset : String
  status : String
deriving Repr, DecidableEq

/-- `FindSunsetHour` (main.go lines 206-231), modelled on the abstract
transport outcome: `none` stands for a network error, timeout, or a body
the JSON decoder rejects (lines 210-219); `some resp` for a decoded
response.  A non-`OK` status (lines 221-223) and an unparseable sunset
string (lines 225-228) are errors; otherwise the parsed hour is
returned. -/
def FindSunsetHour (resp : Option ApiResponse) : Except String ℤ :=
  match resp with
  | none => Except.error "request or decode failure"
  | some r =>
    if r.status ≠ "OK" then Except.error ("api returned status: " ++ r.status)
    else
      match parseClock12 r.sunset with
      | none => Except.error "cannot parse sunset time"
      | some h => Except.ok (h : ℤ)

/-! ## Worker record processing (`InitWorker` body, main.go lines 183-199) -/

/-- One iteration of the worker loop body for a record it received, given
the outcome of `FindSunsetHour`: an error is printed and the record
skipped (lines 184-187); a sunset hour different from the guessed hour is
skipped (lines 189-191); otherwise the `ComputedStructure` of lines
193-199 is sent to the result monitor. -/
def processRecord (lookup : Except String ℤ) (data : Structure) : Option ComputedStructure :=
  match lookup with
  | Except.error _ => none
  | Except.ok sunsetHour =>
    if sunsetHour ≠ data.Hour then none
    else some { Date := data.Date, Lat := data.Lat, Lng := data.Lng,
                Hour := data.Hour, SunsetHour := sunsetHour }

/-- The sequence of submissions one worker makes while consuming a given
sequence of records, the per-record lookup outcome supplied by an oracle
abstracting the external service. -/
def workerRun (lookup : Structure → Except String ℤ) : List Structure → List ComputedStructure
  | [] => []
  | r :: rest =>
    match processRecord (lookup r) r with
    | none => workerRun lookup rest
    | some c => c :: workerRun lookup rest

/-! ## Output report (`writeOutputToFile`, main.go lines 93-104) -/

/-- A natural number below 100 printed on exactly two digits, for the
fractional part of `%.2f`. -/
def pad2 (n : ℕ) : String :=
  if n < 10 then "0" ++ toString n else toString n

/-- Rendering of Go's `%.2f`, modelled on rationals: the value rounded to
the nearest hundredth and printed with exactly two decimals. -/
def fmt2 (q : ℚ) : String :=
  let n : ℤ := round (q * 100)
  (if n < 0 then "-" else "") ++ toString (n.natAbs / 100) ++ "." ++ pad2 (n.natAbs % 100)

/-- The line `Fprintf` writes for one computed record (main.go line 101). -/
def formatLine (v : ComputedStructure) : String :=
  "Date: " ++ v.Date ++ " Lat: " ++ fmt2 v.Lat ++ " Lng: " ++ fmt2 v.Lng ++
    " Guess Hour: " ++ toString v.Hour ++ " Sunset Hour: " ++ toString v.SunsetHour

/-- `writeOutputToFile` (main.go lines 93-104) as the sequence of lines it
writes: the loop of lines 100-102 appends one formatted line per record,
then line 103 appends the `Count` line. -/
def writeOutputToFile (computedData : List ComputedStructure) : List String :=
  computedData.foldl (fun acc v => acc ++ [formatLine v]) [] ++
    ["Count: " ++ toString computedData.length]

/-! ## Input (`ReadJSON`, main.go lines 107-122) -/

/-- `ReadJSON` relative to the outcome of `json.Decoder.Decode` into
`[]Structure` (an error for an unreadable file or malformed JSON, the
decoded slice otherwise): the function returns the decoded records
exactly as decoded — lines 107-122 contain no validation of any field
range. -/
def ReadJSON (decoded : Except String (List Structure)) : Except String (List Structure) :=
  match decoded with
  | Except.error e => Except.error e
  | Except.ok l => Except.ok l

/-! ## Data monitor (`InitDataMonitor`, main.go lines 125-152)

The monitor goroutine owns a FIFO slice and a `noMoreData` flag.  All
channels to it except the buffered request channel are unbuffered, so each
communication is a rendezvous, modelled as one atomic step.  The `main`
goroutine (lines 82-85) sends the records one by one and only then the
no-more-data signal, which the model encodes by keeping the sender's
remaining records in the state.  `delivered` is the history of records
handed over on `responseDataChannel`, each such send being received by
exactly one worker. -/

/-- Combined state of the record-distribution part of the pipeline. -/
structure DMState where
  /-- records `main` has not yet sent on `sendDataChannel` -/
  toInsert : List Structure
  /-- the monitor's `data` slice -/
  queue : List Structure
  /-- the monitor's `noMoreData` flag -/
  noMoreData : Bool
  /-- whether `responseDataChannel` has been closed (line 147) -/
  closed : Bool
  /-- history of records sent on `responseDataChannel`, in order -/
  delivered : List Structure
deriving Repr, DecidableEq

/-- Pipeline start: `main` still holds the whole decoded input, the
monitor's slice is empty, both flags are down, nothing delivered. -/
def DMState.init (input : List Structure) : DMState :=
  { toInsert := input, queue := [], noMoreData := false, closed := false, delivered := [] }

/-- Atomic steps of the data-distribution subsystem. -/
inductive DMStep : DMState → DMState → Prop
  /-- `main` line 83 rendezvouses with the monitor's receive on
  `sendDataChannel`; the record is appended (line 133).  `main` sends
  no-more-data only after all inserts, so the flag is still down. -/
  | insert (r : Structure) (rest q d : List Structure) :
      DMStep { toInsert := r :: rest, queue := q, noMoreData := false,
               closed := false, delivered := d }
             { toInsert := rest, queue := q ++ [r], noMoreData := false,
               closed := false, delivered := d }
  /-- the monitor consumes a request token and, the slice being nonempty,
  sends the head on `responseDataChannel` (lines 135-140), received by
  exactly one worker. -/
  | serve (t : List Structure) (r : Structure) (q : List Structure)
      (nm : Bool) (d : List Structure) :
      DMStep { toInsert := t, queue := r :: q, noMoreData := nm,
               closed := false, delivered := d }
             { toInsert := t, queue := q, noMoreData := nm,
               closed := false, delivered := d ++ [r] }
  /-- the monitor consumes a request token while the slice is empty
  (lines 135-140 with `len(data) == 0`): nothing happens. -/
  | dropRequest (t : List Structure) (nm : Bool) (d : List Structure) :
      DMStep { toInsert := t, queue := [], noMoreData := nm,
               closed := false, delivered := d }
             { toInsert := t, queue := [], noMoreData := nm,
               closed := false, delivered := d }
  /-- `main` line 85 rendezvouses with the monitor's receive on
  `noMoreDataChannel` (lines 142-143); `main`'s sends are sequential, so
  every record has already been inserted. -/
  | noMore (q d : List Structure) :
      DMStep { toInsert := [], queue := q, noMoreData := false,
               closed := false, delivered := d }
             { toInsert := [], queue := q, noMoreData := true,
               closed := false, delivered := d }
  /-- the `default` branch observes the flag up and the slice empty and
  closes `responseDataChannel`, then returns (lines 145-149). -/
  | close (t d : List Structure) :
      DMStep { toInsert := t, queue := [], noMoreData := true,
               closed := false, delivered := d }
             { toInsert := t, queue := [], noMoreData := true,
               closed := true, delivered := d }
  /-- a worker receive on the closed `responseDataChannel` returns the
  zero value with `more = false` immediately (lines 178-181); the state
  is unchanged and the step is enabled in every closed state. -/
  | recvClosed (t q : List Structure) (nm : Bool) (d : List Structure) :
      DMStep { toInsert := t, queue := q, noMoreData := nm,
               closed := true, delivered := d }
             { toInsert := t, queue := q, noMoreData := nm,
               closed := true, delivered := d }

/-- States the distribution subsystem can reach on a given input. -/
def DMReach (input : List Structure) (s : DMState) : Prop :=
  Relation.ReflTransGen DMStep (DMState.init input) s

/-- The central safety invariant of the data monitor: the delivered
history, the pending slice and the not-yet-inserted records always
partition the input in order; the flag rises only once everything is
inserted; the channel closes only with the flag up and the slice empty. -/
theorem dmInvariant (input : List Structure) (s : DMState) (h : DMReach input s) :
    s.delivered ++ s.queue ++ s.toInsert = input ∧
    (s.noMoreData = true → s.toInsert = []) ∧
    (s.closed = true → s.noMoreData = true ∧ s.queue = []) := by
  induction h with
  | refl => simp [DMState.init]
  | tail hab hbc ih =>
    obtain ⟨ih1, ih2, ih3⟩ := ih
    cases hbc with
    | insert r rest q d =>
      refine ⟨?_, by simp, by simp⟩
      simpa [List.append_assoc] using ih1
    | serve t r q nm d =>
      refine ⟨?_, by simpa using ih2, by simp⟩
      simpa [List.append_assoc] using ih1
    | dropRequest t nm d => exact ⟨ih1, ih2, ih3⟩
    | noMore q d => exact ⟨ih1, by simp, by simp⟩
    | close t d => exact ⟨ih1, ih2, by simp⟩
    | recvClosed t q nm d => exact ⟨ih1, ih2, ih3⟩

/-! ## Result monitor (`InitResultMonitor`, main.go lines 155-172) -/

/-- Insertion of a record into an hour-sorted collection, standing for
the source's append-then-re-sort with `sort.Slice` on `Hour <` (lines
161-164).  Any `sort.Slice` outcome agrees with this insert on the two
properties the theorems below use: the resulting multiset and
sortedness by hour.  Where equal hours are concerned `sort.Slice` gives
no guarantee at all (it is documented as not stable; it happens to run
insertion sort, matching this insert exactly, only on slices of fewer
than twelve elements, which covers the concrete one- and two-element
runs built below) — accordingly no theorem in this file relies on where
this insert places a record among equal hours. -/
def insertByHour (a : ComputedStructure) : List ComputedStructure → List ComputedStructure
  | [] => [a]
  | b :: l => if a.Hour < b.Hour then a :: b :: l else b :: insertByHour a l

/-- State of the result monitor goroutine. -/
structure RMState where
  /-- the monitor's `data` slice, kept hour-sorted -/
  data : List ComputedStructure
  /-- the live-worker counter `workerCount` -/
  workerCount : ℕ
  /-- history: how many `workerStatusChannel` signals were consumed -/
  dones : ℕ
  /-- the value sent on `resultMonitorSendFinalDataChannel`, once sent -/
  published : Option (List ComputedStructure)
deriving Repr, DecidableEq

/-- Monitor start state for a pool of `n` workers. -/
def RMState.init (n : ℕ) : RMState :=
  { data := [], workerCount := n, dones := 0, published := none }

/-- Atomic steps of the result monitor.  Every constructor requires
`published = none`: after line 171 the goroutine has returned. -/
inductive RMStep : RMState → RMState → Prop
  /-- a worker's send on `resultMonitorSendDataChannel` rendezvouses with
  lines 160-164: the record is appended and the slice re-sorted by hour.
  The loop guard requires a positive counter. -/
  | submit (c : ComputedStructure) (l : List ComputedStructure) (n k : ℕ) :
      0 < n →
      RMStep { data := l, workerCount := n, dones := k, published := none }
             { data := insertByHour c l, workerCount := n, dones := k, published := none }
  /-- a worker's send on `workerStatusChannel` rendezvouses with lines
  166-167: the counter decreases by exactly one. -/
  | workerDone (l : List ComputedStructure) (n k : ℕ) :
      RMStep { data := l, workerCount := n + 1, dones := k, published := none }
             { data := l, workerCount := n, dones := k + 1, published := none }
  /-- the loop guard `workerCount > 0` fails and line 171 sends the final
  slice to the waiting `main`. -/
  | publish (l : List ComputedStructure) (k : ℕ) :
      RMStep { data := l, workerCount := 0, dones := k, published := none }
             { data := l, workerCount := 0, dones := k, published := some l }

/-- States the result monitor can reach starting with `n` live workers. -/
def RMReach (n : ℕ) (s : RMState) : Prop :=
  Relation.ReflTransGen RMStep (RMState.init n) s

/-- Everything `insertByHour` adds is the new element. -/
theorem mem_insertByHour (x a : ComputedStructure) (l : List ComputedStructure) :
    x ∈ insertByHour a l → x = a ∨ x ∈ l := by
  induction l with
  | nil => intro h; simpa [insertByHour] using h
  | cons b l ih =>
    intro h
    by_cases hc : a.Hour < b.Hour
    · simp only [insertByHour, if_pos hc] at h
      exact List.mem_cons.mp h
    · simp only [insertByHour, if_neg hc] at h
      rcases List.mem_cons.mp h with h1 | h1
      · exact Or.inr (by simp [h1])
      · rcases ih h1 with h2 | h2
        · exact Or.inl h2
        · exact Or.inr (List.mem_cons_of_mem b h2)

/-- `insertByHour` preserves sortedness by hour. -/
theorem insertByHour_sorted (a : ComputedStructure) (l : List ComputedStructure) :
    List.Pairwise (fun x y => x.Hour ≤ y.Hour) l →
    List.Pairwise (fun x y => x.Hour ≤ y.Hour) (insertByHour a l) := by
  induction l with
  | nil => intro h; simp [insertByHour]
  | cons b l ih =>
    intro h
    rcases List.pairwise_cons.mp h with ⟨hb, hl⟩
    by_cases hc : a.Hour < b.Hour
    · simp only [insertByHour, if_pos hc]
      refine List.pairwise_cons.mpr ⟨?_, h⟩
      intro x hx
      rcases List.mem_cons.mp hx with hx1 | hx1
      · exact hx1 ▸ le_of_lt hc
      · exact le_trans (le_of_lt hc) (hb x hx1)
    · simp only [insertByHour, if_neg hc]
      refine List.pairwise_cons.mpr ⟨?_, ih hl⟩
      intro x hx
      rcases mem_insertByHour x a l hx with hx1 | hx1
      · exact hx1 ▸ le_of_not_lt hc
      · exact hb x hx1

/-- The result monitor's safety invariant: the counter and the number of
consumed done-signals always sum to the pool size, the held slice is
hour-sorted, and publication happens only with the counter at zero and
carries exactly the held slice. -/
theorem rmInvariant (n : ℕ) (s : RMState) (h : RMReach n s) :
    s.workerCount + s.dones = n ∧
    List.Pairwise (fun x y => x.Hour ≤ y.Hour) s.data ∧
    (∀ l, s.published = some l → s.workerCount = 0 ∧ s.dones = n ∧ l = s.data) := by
  induction h with
  | refl => simp [RMState.init]
  | tail hab hbc ih =>
    obtain ⟨ih1, ih2, ih3⟩ := ih
    cases hbc with
    | submit c l m k hm =>
      exact ⟨ih1, insertByHour_sorted c l ih2, by simp⟩
    | workerDone l m k =>
      have h1 : m + 1 + k = n := ih1
      exact ⟨show m + (k + 1) = n by omega, ih2, by simp⟩
    | publish l k =>
      refine ⟨ih1, ih2, ?_⟩
      intro l1 hl1
      simp only [Option.some.injEq] at hl1
      exact ⟨rfl, by simpa using ih1, by simp [hl1]⟩

/-- Once the final slice has been sent, the monitor has returned: no
further step is possible. -/
theorem rmTerminal (s s1 : RMState) (l : List ComputedStructure)
    (hp : s.published = some l) (hstep : RMStep s s1) : False := by
  cases hstep <;> simp_all

/-! ## Concrete sample data used by witnesses and counterexamples -/

/-- The record of the spec's Scenario A. -/
def r0 : Structure :=
  { Date := "2024-06-01", Lat := 10, Lng := 20, Hour := 19 }

/-- The computed record Scenario A produces. -/
def c0 : ComputedStructure :=
  { Date := "2024-06-01", Lat := 10, Lng := 20, Hour := 19, SunsetHour := 19 }

/-- A second sample record. -/
def r1 : Structure :=
  { Date := "2024-06-02", Lat := -5, Lng := 7, Hour := 3 }

/-- A record whose hour lies far outside 0-23. -/
def rBad : Structure :=
  { Date := "2024-06-01", Lat := 10, Lng := 20, Hour := 99 }

/-- Two distinct computed records sharing the same hour. -/
def cA : ComputedStructure :=
  { Date := "2024-06-03", Lat := 1, Lng := 2, Hour := 5, SunsetHour := 5 }

/-- Second equal-hour record, distinguishable from `cA` by its date. -/
def cB : ComputedStructure :=
  { Date := "2024-06-04", Lat := 3, Lng := 4, Hour := 5, SunsetHour := 5 }

/-- An oracle whose lookup always fails. -/
def failOracle : Structure → Except String ℤ :=
  fun _ => Except.error "lookup failed"

/-- The closed-and-drained data-monitor state reached on input
`[r0, r1]` after delivering both records. -/
def dmFinal : DMState :=
  { toInsert := [], queue := [], noMoreData := true, closed := true, delivered := [r0, r1] }

/-- The closed-and-drained data-monitor state reached on input `[r1]`. -/
def dmFinal1 : DMState :=
  { toInsert := [], queue := [], noMoreData := true, closed := true, delivered := [r1] }

/-- Result-monitor state after both of two workers signalled completion
and the empty collection was published. -/
def rmFin : RMState :=
  { data := [], workerCount := 0, dones := 2, published := some [] }

/-- Result-monitor state of a one-worker pool right after one submission. -/
def rmMid : RMState :=
  { data := [cA], workerCount := 1, dones := 0, published := none }

/-! ## Claims -/

/-- C1: for every batch of records pushed into the shared queue, each
record is delivered to exactly one worker exactly once — in every
reachable state the delivered history followed by the still-pending
records reconstitutes the input batch with no loss and no duplication —
and the done signal (closing the response channel) is never issued
before every record has been delivered. -/
theorem dataMonitor_exactly_once (input : List Structure) (s : DMState)
    (h : DMReach input s) :
    s.delivered ++ s.queue ++ s.toInsert = input ∧
    (s.closed = true → s.delivered = input) := by
  obtain ⟨h1, h2, h3⟩ := dmInvariant input s h
  refine ⟨h1, fun hc => ?_⟩
  obtain ⟨hnm, hq⟩ := h3 hc
  have ht := h2 hnm
  rw [hq, ht] at h1
  simpa using h1

/-- Witness for C1 on the concrete input `[r0, r1]`: the run that inserts
both records, serves both, receives the no-more signal and closes, is
reachable, and the theorem applies to it. -/
theorem dataMonitor_exactly_once_witness :
    DMReach [r0, r1] dmFinal ∧
    (dmFinal.delivered ++ dmFinal.queue ++ dmFinal.toInsert = [r0, r1] ∧
      (dmFinal.closed = true → dmFinal.delivered = [r0, r1])) := by
  have hreach : DMReach [r0, r1] dmFinal := by
    have st1 : DMStep (DMState.init [r0, r1])
        { toInsert := [r1], queue := [r0], noMoreData := false, closed := false, delivered := [] } :=
      DMStep.insert r0 [r1] [] []
    have st2 : DMStep
        { toInsert := [r1], queue := [r0], noMoreData := false, closed := false, delivered := [] }
        { toInsert := [], queue := [r0, r1], noMoreData := false, closed := false, delivered := [] } :=
      DMStep.insert r1 [] [r0] []
    have st3 : DMStep
        { toInsert := [], queue := [r0, r1], noMoreData := false, closed := false, delivered := [] }
        { toInsert := [], queue := [r1], noMoreData := false, closed := false, delivered := [r0] } :=
      DMStep.serve [] r0 [r1] false []
    have st4 : DMStep
        { toInsert := [], queue := [r1], noMoreData := false, closed := false, delivered := [r0] }
        { toInsert := [], queue := [], noMoreData := false, closed := false, delivered := [r0, r1] } :=
      DMStep.serve [] r1 [] false [r0]
    have st5 : DMStep
        { toInsert := [], queue := [], noMoreData := false, closed := false, delivered := [r0, r1] }
        { toInsert := [], queue := [], noMoreData := true, closed := false, delivered := [r0, r1] } :=
      DMStep.noMore [] [r0, r1]
    have st6 : DMStep
        { toInsert := [], queue := [], noMoreData := true, closed := false, delivered := [r0, r1] }
        dmFinal :=
      DMStep.close [] [r0, r1]
    exact Relation.ReflTransGen.tail (Relation.ReflTransGen.tail (Relation.ReflTransGen.tail
      (Relation.ReflTransGen.tail (Relation.ReflTransGen.tail
        (Relation.ReflTransGen.single st1) st2) st3) st4) st5) st6
  exact ⟨hreach, dataMonitor_exactly_once [r0, r1] dmFinal hreach⟩

/-- C3: in every reachable closed state (response channel closed, the
only way a worker is ever told "no more data"), the no-more-data signal
has been consumed, the queue is empty, and every record of the input was
delivered — so nobody is told "no more" early; moreover closure is
permanent (every further step leaves the state unchanged) and a receive
returning `hasMore = false` is always enabled, so no later `requestNext`
blocks or errors. -/
theorem termination_policy (input : List Structure) (s : DMState)
    (h : DMReach input s) (hc : s.closed = true) :
    s.noMoreData = true ∧ s.queue = [] ∧ s.toInsert = [] ∧ s.delivered = input ∧
    (∀ s1, DMStep s s1 → s1 = s) ∧ DMStep s s := by
  obtain ⟨h1, h2, h3⟩ := dmInvariant input s h
  obtain ⟨hnm, hq⟩ := h3 hc
  have ht := h2 hnm
  have hd : s.delivered = input := by
    rw [hq, ht] at h1
    simpa using h1
  refine ⟨hnm, hq, ht, hd, ?_, ?_⟩
  · intro s1 hstep
    cases hstep <;> first | rfl | simp_all
  · obtain ⟨t, q, nm, cl, d⟩ := s
    simp only at hc
    rw [hc]
    exact DMStep.recvClosed t q nm d

/-- Witness for C3 on the concrete input `[r1]`: the closed state after
insert, serve, no-more and close is reachable and the theorem applies. -/
theorem termination_policy_witness :
    DMReach [r1] dmFinal1 ∧
    (dmFinal1.noMoreData = true ∧ dmFinal1.queue = [] ∧ dmFinal1.toInsert = [] ∧
      dmFinal1.delivered = [r1] ∧
      (∀ s1, DMStep dmFinal1 s1 → s1 = dmFinal1) ∧ DMStep dmFinal1 dmFinal1) := by
  have hreach : DMReach [r1] dmFinal1 := by
    have st1 : DMStep (DMState.init [r1])
        { toInsert := [], queue := [r1], noMoreData := false, closed := false, delivered := [] } :=
      DMStep.insert r1 [] [] []
    have st2 : DMStep
        { toInsert := [], queue := [r1], noMoreData := false, closed := false, delivered := [] }
        { toInsert := [], queue := [], noMoreData := false, closed := false, delivered := [r1] } :=
      DMStep.serve [] r1 [] false []
    have st3 : DMStep
        { toInsert := [], queue := [], noMoreData := false, closed := false, delivered := [r1] }
        { toInsert := [], queue := [], noMoreData := true, closed := false, delivered := [r1] } :=
      DMStep.noMore [] [r1]
    have st4 : DMStep
        { toInsert := [], queue := [], noMoreData := true, closed := false, delivered := [r1] }
        dmFinal1 :=
      DMStep.close [] [r1]
    exact Relation.ReflTransGen.tail (Relation.ReflTransGen.tail
      (Relation.ReflTransGen.tail (Relation.ReflTransGen.single st1) st2) st3) st4
  exact ⟨hreach, termination_policy [r1] dmFinal1 hreach rfl⟩

/-- C4: in every reachable result-monitor state the live-worker counter
plus the number of consumed done-signals equals the pool size (the
counter starts at N and is decremented exactly once per signal), the
final collection is sent only with the counter at zero — never before —
and it carries exactly the held collection; and no step leaves a
published state, so the publication happens at most once. -/
theorem worker_counter_invariant (n : ℕ) (s : RMState) (h : RMReach n s) :
    s.workerCount + s.dones = n ∧
    (∀ l, s.published = some l → s.workerCount = 0 ∧ s.dones = n ∧ l = s.data) ∧
    (∀ l s1, s.published = some l → ¬ RMStep s s1) := by
  obtain ⟨h1, _, h3⟩ := rmInvariant n s h
  exact ⟨h1, h3, fun l s1 hp hstep => rmTerminal s s1 l hp hstep⟩

/-- Witness for C4 on a two-worker pool: the run consuming two
done-signals and publishing is reachable and the theorem applies. -/
theorem worker_counter_invariant_witness :
    RMReach 2 rmFin ∧ rmFin.workerCount + rmFin.dones = 2 := by
  have hreach : RMReach 2 rmFin := by
    have st1 : RMStep (RMState.init 2)
        { data := [], workerCount := 1, dones := 1, published := none } :=
      RMStep.workerDone [] 1 0
    have st2 : RMStep { data := [], workerCount := 1, dones := 1, published := none }
        { data := [], workerCount := 0, dones := 2, published := none } :=
      RMStep.workerDone [] 0 1
    have st3 : RMStep { data := [], workerCount := 0, dones := 2, published := none } rmFin :=
      RMStep.publish [] 2
    exact Relation.ReflTransGen.tail
      (Relation.ReflTransGen.tail (Relation.ReflTransGen.single st1) st2) st3
  exact ⟨hreach, (worker_counter_invariant 2 rmFin hreach).1⟩

/-- C9: the aggregator's held collection is sorted ascending by hour in
every reachable state — the sortedness re-established by the re-sort in
`submit` is an invariant of every step, not only of the final
publication. -/
theorem aggregator_sorted_invariant (n : ℕ) (s : RMState) (h : RMReach n s) :
    List.Pairwise (fun x y => x.Hour ≤ y.Hour) s.data :=
  (rmInvariant n s h).2.1

/-- Witness for C9: the one-worker state right after submitting `cA` is
reachable and the theorem applies to it. -/
theorem aggregator_sorted_invariant_witness :
    RMReach 1 rmMid ∧ List.Pairwise (fun x y => x.Hour ≤ y.Hour) rmMid.data := by
  have hreach : RMReach 1 rmMid := by
    have st1 : RMStep (RMState.init 1) rmMid := by
      have h1 := RMStep.submit cA [] 1 0 (by norm_num)
      simpa [rmMid, insertByHour] using h1
    exact Relation.ReflTransGen.single st1
  exact ⟨hreach, aggregator_sorted_invariant 1 rmMid hreach⟩

/-- C2 (amended): every collection the result monitor publishes is sorted
ascending by hour.  No more than that holds: the order among equal hours
is unspecified — the counterexample shows it is not a deterministic
function of the input, and the source's unstable `sort.Slice` documents
no tie-break of its own. -/
theorem published_sorted_by_hour (n : ℕ) (s : RMState) (l : List ComputedStructure)
    (h : RMReach n s) (hp : s.published = some l) :
    List.Pairwise (fun x y => x.Hour ≤ y.Hour) l := by
  obtain ⟨_, h2, h3⟩ := rmInvariant n s h
  obtain ⟨_, _, hl⟩ := h3 l hp
  rw [hl]
  exact h2

/-- Witness for C2's amended theorem: a one-worker run submitting `cA`,
consuming the done-signal and publishing `[cA]` is reachable and the
theorem applies to its published collection. -/
theorem published_sorted_by_hour_witness :
    RMReach 1 { data := [cA], workerCount := 0, dones := 1, published := some [cA] } ∧
    List.Pairwise (fun x y => x.Hour ≤ y.Hour) [cA] := by
  have hreach : RMReach 1 { data := [cA], workerCount := 0, dones := 1, published := some [cA] } := by
    have st1 : RMStep (RMState.init 1)
        { data := [cA], workerCount := 1, dones := 0, published := none } := by
      have h1 := RMStep.submit cA [] 1 0 (by norm_num)
      simpa [insertByHour] using h1
    have st2 : RMStep { data := [cA], workerCount := 1, dones := 0, published := none }
        { data := [cA], workerCount := 0, dones := 1, published := none } :=
      RMStep.workerDone [cA] 0 0
    have st3 : RMStep { data := [cA], workerCount := 0, dones := 1, published := none }
        { data := [cA], workerCount := 0, dones := 1, published := some [cA] } :=
      RMStep.publish [cA] 1
    exact Relation.ReflTransGen.tail
      (Relation.ReflTransGen.tail (Relation.ReflTransGen.single st1) st2) st3
  exact ⟨hreach, published_sorted_by_hour 1 _ [cA] hreach rfl⟩

/-- C2 counterexample: with a two-worker pool and the two equal-hour
records `cA` and `cB`, both submission interleavings are legal runs of
the result monitor and they publish the two different orders
`[cA, cB]` and `[cB, cA]` — so records with equal hours do not appear in
any deterministic tie-break order: the published tie order depends on
the scheduling-dependent arrival order. -/
theorem tie_order_not_deterministic :
    RMReach 2 { data := [cA, cB], workerCount := 0, dones := 2, published := some [cA, cB] } ∧
    RMReach 2 { data := [cB, cA], workerCount := 0, dones := 2, published := some [cB, cA] } ∧
    cA.Hour = cB.Hour ∧ cA ≠ cB := by
  have eAB : insertByHour cB [cA] = [cA, cB] := by decide
  have eBA : insertByHour cA [cB] = [cB, cA] := by decide
  refine ⟨?_, ?_, by decide, by decide⟩
  · have st1 : RMStep (RMState.init 2)
        { data := [cA], workerCount := 2, dones := 0, published := none } := by
      have h1 := RMStep.submit cA [] 2 0 (by norm_num)
      simpa [insertByHour] using h1
    have st2 : RMStep { data := [cA], workerCount := 2, dones := 0, published := none }
        { data := [cA, cB], workerCount := 2, dones := 0, published := none } := by
      have h1 := RMStep.submit cB [cA] 2 0 (by norm_num)
      simpa [eAB] using h1
    have st3 : RMStep { data := [cA, cB], workerCount := 2, dones := 0, published := none }
        { data := [cA, cB], workerCount := 1, dones := 1, published := none } :=
      RMStep.workerDone [cA, cB] 1 0
    have st4 : RMStep { data := [cA, cB], workerCount := 1, dones := 1, published := none }
        { data := [cA, cB], workerCount := 0, dones := 2, published := none } :=
      RMStep.workerDone [cA, cB] 0 1
    have st5 : RMStep { data := [cA, cB], workerCount := 0, dones := 2, published := none }
        { data := [cA, cB], workerCount := 0, dones := 2, published := some [cA, cB] } :=
      RMStep.publish [cA, cB] 2
    exact Relation.ReflTransGen.tail (Relation.ReflTransGen.tail (Relation.ReflTransGen.tail
      (Relation.ReflTransGen.tail (Relation.ReflTransGen.single st1) st2) st3) st4) st5
  · have st1 : RMStep (RMState.init 2)
        { data := [cB], workerCount := 2, dones := 0, published := none } := by
      have h1 := RMStep.submit cB [] 2 0 (by norm_num)
      simpa [insertByHour] using h1
    have st2 : RMStep { data := [cB], workerCount := 2, dones := 0, published := none }
        { data := [cB, cA], workerCount := 2, dones := 0, published := none } := by
      have h1 := RMStep.submit cA [cB] 2 0 (by norm_num)
      simpa [eBA] using h1
    have st3 : RMStep { data := [cB, cA], workerCount := 2, dones := 0, published := none }
        { data := [cB, cA], workerCount := 1, dones := 1, published := none } :=
      RMStep.workerDone [cB, cA] 1 0
    have st4 : RMStep { data := [cB, cA], workerCount := 1, dones := 1, published := none }
        { data := [cB, cA], workerCount := 0, dones := 2, published := none } :=
      RMStep.workerDone [cB, cA] 0 1
    have st5 : RMStep { data := [cB, cA], workerCount := 0, dones := 2, published := none }
        { data := [cB, cA], workerCount := 0, dones := 2, published := some [cB, cA] } :=
      RMStep.publish [cB, cA] 2
    exact Relation.ReflTransGen.tail (Relation.ReflTransGen.tail (Relation.ReflTransGen.tail
      (Relation.ReflTransGen.tail (Relation.ReflTransGen.single st1) st2) st3) st4) st5

/-- C5: when the lookup succeeds, the worker produces a submission for
the record if and only if the returned sunset hour equals the record's
requested hour; and every submission that ever exists — over any lookup
outcome — has its sunset hour equal to its requested hour and carries
the record's fields unchanged. -/
theorem submit_iff_hour_match (r : Structure) (sh : ℤ) :
    ((processRecord (Except.ok sh) r).isSome = true ↔ sh = r.Hour) ∧
    (∀ res c, processRecord res r = some c →
      c.SunsetHour = c.Hour ∧ c.Hour = r.Hour ∧ c.Date = r.Date ∧
        c.Lat = r.Lat ∧ c.Lng = r.Lng) := by
  constructor
  · by_cases hh : sh = r.Hour <;> simp [processRecord, hh]
  · intro res c hc
    cases res with
    | error e => simp [processRecord] at hc
    | ok v =>
      by_cases hh : v = r.Hour
      · simp [processRecord, hh] at hc
        subst hc
        simp
      · simp [processRecord, hh] at hc

/-- Witness for C5 on the Scenario A record: the lookup returning 19
produces exactly `c0`, whose sunset hour equals its requested hour. -/
theorem submit_iff_hour_match_witness :
    processRecord (Except.ok 19) r0 = some c0 ∧ c0.SunsetHour = c0.Hour := by
  have h := (submit_iff_hour_match r0 19).2 (Except.ok 19) c0 (by decide)
  exact ⟨by decide, h.1⟩

/-- C6: a failed lookup is contained within the worker: the failing
record contributes nothing to the worker's submissions (and hence to the
final count) and every other record is processed exactly as if the
failing record were absent — the loop continues and never aborts.  All
three per-record failure shapes of `FindSunsetHour` (transport or decode
failure, non-OK status, unparseable sunset string) yield such an error. -/
theorem lookup_failure_contained (oracle : Structure → Except String ℤ)
    (pre post : List Structure) (r : Structure) (e : String)
    (he : oracle r = Except.error e) :
    workerRun oracle (pre ++ r :: post) = workerRun oracle (pre ++ post) ∧
    FindSunsetHour none = Except.error "request or decode failure" ∧
    (∀ rsp : ApiResponse, rsp.status ≠ "OK" →
      FindSunsetHour (some rsp) = Except.error ("api returned status: " ++ rsp.status)) ∧
    (∀ rsp : ApiResponse, rsp.status = "OK" → parseClock12 rsp.sunset = none →
      FindSunsetHour (some rsp) = Except.error "cannot parse sunset time") := by
  refine ⟨?_, rfl, ?_, ?_⟩
  · induction pre with
    | nil => simp [workerRun, processRecord, he]
    | cons p pre ih =>
      cases hp : processRecord (oracle p) p with
      | none => simp [workerRun, hp, ih]
      | some c => simp [workerRun, hp, ih]
  · intro rsp hs
    simp [FindSunsetHour, hs]
  · intro rsp hs hp
    simp [FindSunsetHour, hs, hp]

/-- Witness for C6: with the always-failing oracle, the run over the
single record `r0` equals the run over no records at all. -/
theorem lookup_failure_contained_witness :
    failOracle r0 = Except.error "lookup failed" ∧
    workerRun failOracle ([] ++ r0 :: []) = workerRun failOracle ([] ++ []) :=
  ⟨rfl, (lookup_failure_contained failOracle [] [] r0 "lookup failed" rfl).1⟩

/-- C7: nothing in the pipeline setup rejects a zero-worker
configuration.  With a pool size of zero, the result monitor's loop
guard fails immediately and the empty collection is published at once;
the run then writes a report consisting of only `Count: 0`, while the
input record sits undelivered in the data monitor, whose queue can never
drain: the configuration is accepted and the run completes with the
record silently lost instead of aborting with an error. -/
theorem zero_workers_not_rejected :
    RMReach 0 { data := [], workerCount := 0, dones := 0, published := some [] } ∧
    writeOutputToFile [] = ["Count: 0"] ∧
    DMReach [r0] { toInsert := [], queue := [r0], noMoreData := true,
                   closed := false, delivered := [] } := by
  refine ⟨Relation.ReflTransGen.single (RMStep.publish [] 0), by decide, ?_⟩
  have st1 : DMStep (DMState.init [r0])
      { toInsert := [], queue := [r0], noMoreData := false, closed := false, delivered := [] } :=
    DMStep.insert r0 [] [] []
  have st2 : DMStep
      { toInsert := [], queue := [r0], noMoreData := false, closed := false, delivered := [] }
      { toInsert := [], queue := [r0], noMoreData := true, closed := false, delivered := [] } :=
    DMStep.noMore [r0] []
  exact Relation.ReflTransGen.tail (Relation.ReflTransGen.single st1) st2

/-- Helper for C8: the output loop appends exactly one formatted line per
record, in order. -/
theorem foldl_formatLine (l : List ComputedStructure) :
    ∀ acc : List String,
      l.foldl (fun a v => a ++ [formatLine v]) acc = acc ++ l.map formatLine := by
  induction l with
  | nil => intro acc; simp
  | cons b l ih =>
    intro acc
    simp [List.foldl_cons, ih, List.append_assoc]

/-- C8: for every collection, the written report is exactly one line per
match, in the collection's order, each produced by `formatLine` (the
`Date: ... Lat: ... Lng: ... Guess Hour: ... Sunset Hour: ...` format of
line 101), followed by a single trailing `Count` line whose number is the
number of match lines; in particular the report has exactly one more
line than the collection. -/
theorem output_format (d : List ComputedStructure) :
    writeOutputToFile d =
      d.map formatLine ++ ["Count: " ++ toString (d.map formatLine).length] ∧
    (writeOutputToFile d).length = d.length + 1 := by
  have h1 : writeOutputToFile d =
      d.map formatLine ++ ["Count: " ++ toString (d.map formatLine).length] := by
    simp [writeOutputToFile, foldl_formatLine, List.length_map]
  refine ⟨h1, ?_⟩
  rw [h1]
  simp

/-- C10: `ReadJSON` applies no range validation to the decoded records:
whatever list the JSON decoder produces is returned unchanged, so a
record whose hour is 99 (or any latitude and longitude) enters the
pipeline, is delivered by the data monitor, and is processed by the
worker under the same exact-equality rule as any other record. -/
theorem readJSON_no_range_validation :
    (∀ l : List Structure, ReadJSON (Except.ok l) = Except.ok l) ∧
    ReadJSON (Except.ok [rBad]) = Except.ok [rBad] ∧
    DMReach [rBad] { toInsert := [], queue := [], noMoreData := false,
                     closed := false, delivered := [rBad] } ∧
    processRecord (Except.ok rBad.Hour) rBad =
      some { Date := rBad.Date, Lat := rBad.Lat, Lng := rBad.Lng,
             Hour := rBad.Hour, SunsetHour := rBad.Hour } ∧
    processRecord (Except.ok 18) rBad = none := by
  refine ⟨fun l => rfl, rfl, ?_, by decide, by decide⟩
  have st1 : DMStep (DMState.init [rBad])
      { toInsert := [], queue := [rBad], noMoreData := false, closed := false, delivered := [] } :=
    DMStep.insert rBad [] [] []
  have st2 : DMStep
      { toInsert := [], queue := [rBad], noMoreData := false, closed := false, delivered := [] }
      { toInsert := [], queue := [], noMoreData := false, closed := false, delivered := [rBad] } :=
    DMStep.serve [] rBad [] false []
  exact Relation.ReflTransGen.tail (Relation.ReflTransGen.single st1) st2

end Lab2
